import Mathlib

/-!
Verification development for the serverless edge worker node:
a shallow embedding of the request admission and dispatch core
(scheduling policy front-end, per-function container pool, resource
ledger, HTTP api request-id and async-poll logic), together with
theorems settling the specified properties.

Machine floats (CPU shares) are modelled as rationals, Go int64 as Int.
The external container runtime and metadata store are modelled as an
explicit environment (memory per container id, destruction failures,
runtime image table, function table). Ghost fields record the sequence
of destruction calls and successful destructions; the embedded code
never reads them.
-/

abbrev ContainerID := String

/-- Function descriptor (function package is external to the analysed
sources; fields are the ones the analysed code reads, following the
data model of the specification). -/
structure Function where
  Name : String
  Runtime : String
  CustomImage : String
  TarFunctionCode : String
  CPUDemand : Rat
  MemoryMB : Int
deriving DecidableEq, Repr

/-- Warm (ready) pool entry, as in the source. -/
structure warmContainer where
  Expiration : Int
  Function : String
  contID : ContainerID
deriving DecidableEq, Repr

/-- Busy pool entry, as in the source. -/
structure busyContainer where
  Function : String
  contID : ContainerID
deriving DecidableEq, Repr

/-- Per-function pool: a busy list and a ready (warm) list, front at
the head. -/
structure ContainerPool where
  busy : List busyContainer
  ready : List warmContainer
deriving DecidableEq, Repr

/-- Process-wide resource ledger and pool map. The Go map of pools is
modelled as an association list (one fixed enumeration order). The
destroyCalls and destroyed fields are ghost observers of calls to the
container driver. -/
structure NodeState where
  AvailableCPUs : Rat
  AvailableMemMB : Int
  ContainerPools : List (String × ContainerPool)
  destroyCalls : List ContainerID
  destroyed : List ContainerID
deriving DecidableEq, Repr

/-- External world: the container runtime and the metadata store.
contMemory backs container.GetMemoryMB, memErr its error flag,
destroyErr makes container.Destroy fail, runtimeImage backs
container.RuntimeToInfo, functions backs function.GetFunction. -/
structure Env where
  contMemory : ContainerID → Int
  memErr : ContainerID → Bool
  destroyErr : ContainerID → Bool
  runtimeImage : String → Option String
  functions : String → Option Function

/-- Errors surfaced by the pool manager, mirroring the source: the
NoWarmFoundErr sentinel, the distinct container-exists-for-another-
function error, OutOfResourcesErr, the invalid-runtime error and a
sandbox driver creation failure. -/
inductive NodeErr where
  | NoWarmFound : NodeErr
  | FunctionMismatch : String → NodeErr
  | OutOfResources : NodeErr
  | InvalidRuntime : String → NodeErr
  | DriverError : String → NodeErr
deriving DecidableEq, Repr

deriving instance DecidableEq for Except

/-- container.GetMemoryMB with its error flag. -/
def getMemoryMBChecked (env : Env) (c : ContainerID) : Option Int :=
  if env.memErr c then none else some (env.contMemory c)

/-- container.GetMemoryMB at call sites that discard the error (the
Go zero value 0 is returned on error). -/
def getMemoryMB (env : Env) (c : ContainerID) : Int :=
  (getMemoryMBChecked env c).getD 0

/-- container.Destroy: returns success and records the call (and the
successful destruction) in the ghost logs. -/
def containerDestroy (env : Env) (st : NodeState) (c : ContainerID) :
    Bool × NodeState :=
  if env.destroyErr c then
    (false, { st with destroyCalls := st.destroyCalls ++ [c] })
  else
    (true, { st with destroyCalls := st.destroyCalls ++ [c],
                     destroyed := st.destroyed ++ [c] })

/-- Lookup of a pool in the pools map. -/
def lookupPool : List (String × ContainerPool) → String → Option ContainerPool
  | [], _ => none
  | (n, p) :: rest, name => if n = name then some p else lookupPool rest name

/-- Map update: replace the pool bound to name, or append a new binding. -/
def setPool : List (String × ContainerPool) → String → ContainerPool →
    List (String × ContainerPool)
  | [], name, fp => [(name, fp)]
  | (n, p) :: rest, name, fp =>
      if n = name then (name, fp) :: rest else (n, p) :: setPool rest name fp

/-- getFunctionPool: retrieve or create the pool for a function; the
state is returned with the (possibly new, empty) pool installed. -/
def ensurePool (st : NodeState) (name : String) : NodeState :=
  match lookupPool st.ContainerPools name with
  | some _ => st
  | none => { st with ContainerPools := st.ContainerPools ++ [(name, ⟨[], []⟩)] }

/-- The pool bound to a name, empty when absent. -/
def poolOf (st : NodeState) (name : String) : ContainerPool :=
  (lookupPool st.ContainerPools name).getD ⟨[], []⟩

/-- Ready list of the pool of a function. -/
def readyOf (st : NodeState) (name : String) : List warmContainer :=
  (poolOf st name).ready

/-- Busy list of the pool of a function. -/
def busyOf (st : NodeState) (name : String) : List busyContainer :=
  (poolOf st name).busy

/-- getWarmContainer: inspect the front ready entry; on a function
match remove it and push it onto the busy list (putBusyContainer),
otherwise return the "no function" sentinel or not-found. -/
def getWarmContainer (fp : ContainerPool) (funcName : String) :
    ContainerID × Bool × ContainerPool :=
  match fp.ready with
  | [] => ("", false, fp)
  | w :: rest =>
      if w.Function ≠ funcName then ("no function", false, fp)
      else (w.contID, true,
            { busy := fp.busy ++ [⟨funcName, w.contID⟩], ready := rest })

/-- Item collected during the first phase of dismissContainer: the id
Destroy will be called on and the memory credited are both taken from
the front entry of the pool the item came from; the element itself is
identified positionally (phase two removes the then-front entry of
that pool). -/
structure itemToDismiss where
  contID : ContainerID
  poolName : String
  memory : Int
deriving DecidableEq, Repr

/-- Inner walk of phase one over the ready list of one pool: one item
per element, id and memory fixed to the front entry, stopping as soon
as the accumulated memory reaches the requirement (the goto cleanup). -/
def phase1Pool (required : Int) (frontID : ContainerID) (memory : Int)
    (name : String) :
    List warmContainer → List itemToDismiss → Int →
    List itemToDismiss × Int × Bool
  | [], acc, cleaned => (acc, cleaned, false)
  | _ :: rest, acc, cleaned =>
      let acc := acc ++ [⟨frontID, name, memory⟩]
      let cleaned := cleaned + memory
      if cleaned ≥ required then (acc, cleaned, true)
      else phase1Pool required frontID memory name rest acc cleaned

/-- Phase one of dismissContainer: walk the pools in map enumeration
order collecting front-running ready entries. -/
def phase1 (env : Env) (required : Int) :
    List (String × ContainerPool) → List itemToDismiss → Int →
    List itemToDismiss × Int
  | [], acc, cleaned => (acc, cleaned)
  | (name, fp) :: rest, acc, cleaned =>
    match fp.ready with
    | [] => phase1 env required rest acc cleaned
    | front :: _ =>
        let memory := getMemoryMB env front.contID
        let r := phase1Pool required front.contID memory name fp.ready acc cleaned
        if r.2.2 then (r.1, r.2.1)
        else phase1 env required rest r.1 r.2.1

/-- Remove the front ready entry of the pool bound to a name. -/
def removeFrontReady : List (String × ContainerPool) → String →
    List (String × ContainerPool)
  | [], _ => []
  | (n, p) :: rest, name =>
      if n = name then (n, { p with ready := p.ready.tail }) :: rest
      else (n, p) :: removeFrontReady rest name

/-- Phase two of dismissContainer: for each collected item remove the
front entry of its pool, destroy, and credit its memory; a destruction
error aborts immediately with false. -/
def phase2 (env : Env) : List itemToDismiss → NodeState → Bool × NodeState
  | [], st => (true, st)
  | item :: rest, st =>
      let st := { st with
        ContainerPools := removeFrontReady st.ContainerPools item.poolName }
      let r := containerDestroy env st item.contID
      if r.1 then
        phase2 env rest
          { r.2 with AvailableMemMB := r.2.AvailableMemMB + item.memory }
      else (false, r.2)

/-- dismissContainer: two-phase eviction of warm containers to free
the required memory. -/
def dismissContainer (env : Env) (required : Int) (st : NodeState) :
    Bool × NodeState :=
  let r := phase1 env required st.ContainerPools [] 0
  if r.2 ≥ required then phase2 env r.1 st
  else (false, st)

/-- acquireResources: reserve cpu and memory, evicting warm containers
when allowed and needed. -/
def acquireResources (env : Env) (cpuDemand : Rat) (memDemand : Int)
    (destroyContainersIfNeeded : Bool) (st : NodeState) : Bool × NodeState :=
  if st.AvailableCPUs < cpuDemand then (false, st)
  else if st.AvailableMemMB < memDemand then
    if !destroyContainersIfNeeded then (false, st)
    else
      let r := dismissContainer env memDemand st
      if !r.1 then (false, r.2)
      else (true, { r.2 with
        AvailableCPUs := r.2.AvailableCPUs - cpuDemand,
        AvailableMemMB := r.2.AvailableMemMB - memDemand })
  else (true, { st with
    AvailableCPUs := st.AvailableCPUs - cpuDemand,
    AvailableMemMB := st.AvailableMemMB - memDemand })

/-- releaseResources: credit cpu and memory back. -/
def releaseResources (cpuDemand : Rat) (memDemand : Int) (st : NodeState) :
    NodeState :=
  { st with AvailableCPUs := st.AvailableCPUs + cpuDemand,
            AvailableMemMB := st.AvailableMemMB + memDemand }

/-- AcquireWarmContainer: pop a warm container for the function (if
any), move it to busy, and reserve cpu only. -/
def AcquireWarmContainer (env : Env) (f : Function) (st : NodeState) :
    Except NodeErr ContainerID × NodeState :=
  let st := ensurePool st f.Name
  let fp := poolOf st f.Name
  let r := getWarmContainer fp f.Name
  let st := { st with ContainerPools := setPool st.ContainerPools f.Name r.2.2 }
  if r.2.1 then
    let a := acquireResources env f.CPUDemand 0 false st
    if a.1 then (Except.ok r.1, a.2)
    else (Except.error NodeErr.OutOfResources, a.2)
  else
    if r.1 = "no function" then
      (Except.error (NodeErr.FunctionMismatch f.Name), st)
    else (Except.error NodeErr.NoWarmFound, st)

/-- Remove the first busy entry with the given container id, returning
its recorded function name when found. -/
def removeBusy : List busyContainer → ContainerID →
    List busyContainer × Option String
  | [], _ => ([], none)
  | b :: rest, cid =>
      if b.contID = cid then (rest, some b.Function)
      else
        let r := removeBusy rest cid
        (b :: r.1, r.2)

/-- ReleaseContainer: move a container from busy back to ready with
the given expiration, crediting cpu only. -/
def ReleaseContainer (f : Function) (contID : ContainerID) (expTime : Int)
    (st : NodeState) : NodeState :=
  let st := ensurePool st f.Name
  let fp := poolOf st f.Name
  let r := removeBusy fp.busy contID
  let fName := r.2.getD f.Name
  let fp := { busy := r.1,
              ready := fp.ready ++ [⟨expTime, fName, contID⟩] : ContainerPool }
  let st := { st with ContainerPools := setPool st.ContainerPools f.Name fp }
  releaseResources f.CPUDemand 0 st

/-- NewContainerWithAcquiredResources: resolve the runtime image, call
the sandbox driver (its outcome is an input), roll the reservation
back on driver failure, and on success put the new container directly
into busy. An unknown runtime surfaces an error without touching the
reservation. -/
def NewContainerWithAcquiredResources (env : Env) (f : Function)
    (driverResult : Except String ContainerID) (st : NodeState) :
    Except NodeErr ContainerID × NodeState :=
  let image : Option String :=
    if f.Runtime = "custom" then some f.CustomImage
    else env.runtimeImage f.Runtime
  match image with
  | none => (Except.error (NodeErr.InvalidRuntime f.Runtime), st)
  | some _ =>
    match driverResult with
    | Except.error e =>
        (Except.error (NodeErr.DriverError e),
         releaseResources f.CPUDemand f.MemoryMB st)
    | Except.ok contID =>
        let st := ensurePool st f.Name
        let fp := poolOf st f.Name
        let fp := { fp with busy := fp.busy ++ [⟨f.Name, contID⟩] }
        (Except.ok contID,
         { st with ContainerPools := setPool st.ContainerPools f.Name fp })

/-- NewContainer: reserve cpu and memory (eviction allowed) and start
a container. -/
def NewContainer (env : Env) (f : Function)
    (driverResult : Except String ContainerID) (st : NodeState) :
    Except NodeErr ContainerID × NodeState :=
  let a := acquireResources env f.CPUDemand f.MemoryMB true st
  if a.1 then NewContainerWithAcquiredResources env f driverResult a.2
  else (Except.error NodeErr.OutOfResources, a.2)

/-- The ready-list walk of DeleteExpiredContainer on one pool: remove
each entry with expiration strictly before now, credit its memory and
attempt its destruction (errors only logged). -/
def expireSweepList (env : Env) (now : Int) :
    List warmContainer → NodeState → List warmContainer × NodeState
  | [], st => ([], st)
  | w :: rest, st =>
      if now > w.Expiration then
        let mem := getMemoryMB env w.contID
        let st := releaseResources 0 mem st
        let st := (containerDestroy env st w.contID).2
        expireSweepList env now rest st
      else
        let r := expireSweepList env now rest st
        (w :: r.1, r.2)

/-- Walk of DeleteExpiredContainer over all pools. -/
def expirePools (env : Env) (now : Int) :
    List (String × ContainerPool) → NodeState →
    List (String × ContainerPool) × NodeState
  | [], st => ([], st)
  | (name, fp) :: rest, st =>
      let r := expireSweepList env now fp.ready st
      let r2 := expirePools env now rest r.2
      ((name, { fp with ready := r.1 }) :: r2.1, r2.2)

/-- DeleteExpiredContainer: the periodic expiry sweep. -/
def DeleteExpiredContainer (env : Env) (now : Int) (st : NodeState) :
    NodeState :=
  let r := expirePools env now st.ContainerPools st
  { r.2 with ContainerPools := r.1 }

/-- ShutdownWarmContainersFor ready walk: credit each warm entry and
collect its id for asynchronous destruction. -/
def shutdownForLoop (env : Env) :
    List warmContainer → NodeState → NodeState × List ContainerID
  | [], st => (st, [])
  | w :: rest, st =>
      let mem := getMemoryMB env w.contID
      let st := { st with AvailableMemMB := st.AvailableMemMB + mem }
      let r := shutdownForLoop env rest st
      (r.1, w.contID :: r.2)

/-- ShutdownWarmContainersFor: purge the ready list of one function,
crediting memory before the (asynchronous) destructions run. -/
def ShutdownWarmContainersFor (env : Env) (f : Function) (st : NodeState) :
    NodeState :=
  match lookupPool st.ContainerPools f.Name with
  | none => st
  | some fp =>
      let r := shutdownForLoop env fp.ready st
      let st := { r.1 with
        ContainerPools := setPool r.1.ContainerPools f.Name { fp with ready := [] } }
      r.2.foldl (fun s c => (containerDestroy env s c).2) st

/-- ShutdownAllContainers ready walk: remove each warm entry, destroy
(errors only logged) and credit its memory. -/
def shutdownReadyWalk (env : Env) :
    List warmContainer → NodeState → NodeState
  | [], st => st
  | w :: rest, st =>
      let mem := getMemoryMB env w.contID
      let st := (containerDestroy env st w.contID).2
      let st := { st with AvailableMemMB := st.AvailableMemMB + mem }
      shutdownReadyWalk env rest st

/-- ShutdownAllContainers busy walk: the removal in the source targets
the ready list, which no longer contains these elements, so the busy
list itself is left intact; on a memory-query or destruction error the
entry is skipped without credit, otherwise memory and the function
descriptor cpu demand are credited. -/
def shutdownBusyWalk (env : Env) (cpu : Rat) :
    List busyContainer → NodeState → NodeState
  | [], st => st
  | b :: rest, st =>
      match getMemoryMBChecked env b.contID with
      | none => shutdownBusyWalk env cpu rest st
      | some mem =>
          let r := containerDestroy env st b.contID
          if r.1 then
            shutdownBusyWalk env cpu rest
              { r.2 with AvailableMemMB := r.2.AvailableMemMB + mem,
                         AvailableCPUs := r.2.AvailableCPUs + cpu }
          else shutdownBusyWalk env cpu rest r.2

/-- ShutdownAllContainers: walk every pool; the ready list is emptied,
the busy list survives (its removals are no-ops on the ready list). -/
def ShutdownAllContainers (env : Env) (st : NodeState) : NodeState :=
  let step := fun (acc : NodeState) (p : String × ContainerPool) =>
    let acc := shutdownReadyWalk env p.2.ready acc
    let cpu := match env.functions p.1 with
      | some fd => fd.CPUDemand
      | none => 0
    let acc := shutdownBusyWalk env cpu p.2.busy acc
    { acc with ContainerPools :=
        acc.ContainerPools ++ [(p.1, { busy := p.2.busy, ready := [] })] }
  st.ContainerPools.foldl step { st with ContainerPools := [] }

/-- Decision engine verdicts (the engines themselves are external). -/
inductive Decision where
  | EXECUTE_REQUEST : Decision
  | OFFLOAD_REQUEST : Decision
  | DROP_REQUEST : Decision
deriving DecidableEq, Repr

/-- Observable outcome of the front-end for one arrival. -/
inductive SchedOutcome where
  | execLocal : ContainerID → SchedOutcome
  | coldStarted : SchedOutcome
  | offloaded : SchedOutcome
  | dropped : SchedOutcome
deriving DecidableEq, Repr

/-- OnArrival of the cloud-offload policy. The decision comes from the
external engine; handleColdStart is modelled from the spec: it attempts
a cold start and reports success, returning false when resources are
exhausted (its verdict is the coldStartOk input). -/
def OnArrival (env : Env) (dec : Decision) (f : Function)
    (canDoOffloading : Bool) (coldStartOk : Bool) (st : NodeState) :
    SchedOutcome × NodeState :=
  match dec with
  | Decision.EXECUTE_REQUEST =>
      let r := AcquireWarmContainer env f st
      match r.1 with
      | Except.ok contID => (SchedOutcome.execLocal contID, r.2)
      | Except.error _ =>
          if coldStartOk then (SchedOutcome.coldStarted, r.2)
          else if canDoOffloading then (SchedOutcome.offloaded, r.2)
          else (SchedOutcome.dropped, r.2)
  | Decision.OFFLOAD_REQUEST => (SchedOutcome.offloaded, st)
  | Decision.DROP_REQUEST => (SchedOutcome.dropped, st)

/-- Go slice nodeId[len-5:], the node identifier suffix used in ids. -/
def nodeIdSuffix (nodeId : String) : String :=
  (nodeId.toList.drop (nodeId.length - 5)).asString

/-- Go Arrival.Nanosecond(): the sub-second nanosecond component of the
arrival instant (arrival expressed in nanoseconds since the epoch). -/
def arrivalNanosecond (arrivalUnixNano : Int) : Int :=
  arrivalUnixNano % 1000000000

/-- Modelled from the spec: the request id built by InvokeFunction.
The function component renders as the function name (the formatting of
the external function descriptor is specified as the function name);
the source appends the last five characters of the node identifier and
the Nanosecond() component of the arrival time. -/
def reqIdOf (funName nodeId : String) (arrivalUnixNano : Int) : String :=
  funName ++ "-" ++ nodeIdSuffix nodeId ++ toString (arrivalNanosecond arrivalUnixNano)

/-- Responses PollAsyncResult can produce. -/
inductive PollOutcome where
  | guardNotFound : PollOutcome
  | internalError : PollOutcome
  | okPayload : String → PollOutcome
  | storageNotFound : PollOutcome
deriving DecidableEq, Repr

/-- PollAsyncResult: the empty-id guard compares the id length (a Go
int) against zero, then the storage lookup (etcd client connection and
query merged into one fallible input, the list of values at the key)
decides the response. -/
def pollAsyncResult (reqId : String) (etcd : Except String (List String)) :
    PollOutcome :=
  if (reqId.length : Int) < 0 then PollOutcome.guardNotFound
  else
    match etcd with
    | Except.error _ => PollOutcome.internalError
    | Except.ok kvs =>
        if kvs.length = 1 then PollOutcome.okPayload (kvs.headD "")
        else PollOutcome.storageNotFound

/-- Cpu currently reserved on behalf of a busy entry: the cpu demand
of its function per the metadata store. -/
def entryCPU (env : Env) (b : busyContainer) : Rat :=
  match env.functions b.Function with
  | some fd => fd.CPUDemand
  | none => 0

/-- Cpu reserved by the sandboxes the pools record as live: busy
entries hold their function cpu demand, warm entries hold none. -/
def heldCPU (env : Env) (st : NodeState) : Rat :=
  (st.ContainerPools.map (fun p => (p.2.busy.map (entryCPU env)).sum)).sum

/-- Memory reserved by the sandboxes the pools record as live: every
entry, warm or busy, holds the memory of its container. -/
def heldMem (env : Env) (st : NodeState) : Int :=
  (st.ContainerPools.map (fun p =>
    (p.2.busy.map (fun b => getMemoryMB env b.contID)).sum +
    (p.2.ready.map (fun w => getMemoryMB env w.contID)).sum)).sum

theorem lookupPool_setPool_self (pools : List (String × ContainerPool))
    (name : String) (fp : ContainerPool) :
    lookupPool (setPool pools name fp) name = some fp := by
  induction pools with
  | nil => simp [setPool, lookupPool]
  | cons hd tl ih =>
      obtain ⟨n, p⟩ := hd
      by_cases h : n = name
      · simp [setPool, lookupPool, h]
      · simp [setPool, lookupPool, h, ih]

theorem setPool_self_of_lookup (pools : List (String × ContainerPool))
    (name : String) (fp : ContainerPool)
    (h : lookupPool pools name = some fp) : setPool pools name fp = pools := by
  induction pools with
  | nil => simp [lookupPool] at h
  | cons hd tl ih =>
      obtain ⟨n, p⟩ := hd
      by_cases hn : n = name
      · subst hn
        simp [lookupPool] at h
        simp [setPool, h]
      · simp [lookupPool, hn] at h
        simp [setPool, hn, ih h]

theorem lookupPool_append_single (pools : List (String × ContainerPool))
    (name : String) (fp : ContainerPool)
    (h : lookupPool pools name = none) :
    lookupPool (pools ++ [(name, fp)]) name = some fp := by
  induction pools with
  | nil => simp [lookupPool]
  | cons hd tl ih =>
      obtain ⟨n, p⟩ := hd
      by_cases hn : n = name
      · simp [lookupPool, hn] at h
      · simp [lookupPool, hn] at h ⊢
        exact ih h

theorem ensurePool_lookup (st : NodeState) (name : String) :
    lookupPool (ensurePool st name).ContainerPools name = some (poolOf st name) := by
  unfold ensurePool poolOf
  cases h : lookupPool st.ContainerPools name with
  | some fp => simp [h]
  | none => simp [h, lookupPool_append_single _ _ _ h]

theorem ensurePool_poolOf (st : NodeState) (name : String) :
    poolOf (ensurePool st name) name = poolOf st name := by
  unfold poolOf
  rw [ensurePool_lookup]
  rfl

theorem ensurePool_scalars (st : NodeState) (name : String) :
    (ensurePool st name).AvailableCPUs = st.AvailableCPUs ∧
    (ensurePool st name).AvailableMemMB = st.AvailableMemMB ∧
    (ensurePool st name).destroyCalls = st.destroyCalls ∧
    (ensurePool st name).destroyed = st.destroyed := by
  unfold ensurePool
  cases lookupPool st.ContainerPools name <;> exact ⟨rfl, rfl, rfl, rfl⟩

/-- C10: the empty-request-id guard of PollAsyncResult is unreachable:
a string length is never negative, so every poll, the empty id
included, proceeds to the storage lookup and is answered from it,
never from the guard. -/
theorem pollAsyncResult_guard_unreachable (reqId : String)
    (etcd : Except String (List String)) :
    pollAsyncResult reqId etcd ≠ PollOutcome.guardNotFound ∧
    pollAsyncResult reqId etcd =
      (match etcd with
       | Except.error _ => PollOutcome.internalError
       | Except.ok kvs =>
           if kvs.length = 1 then PollOutcome.okPayload (kvs.headD "")
           else PollOutcome.storageNotFound) := by
  have h : ¬ ((reqId.length : Int) < 0) := not_lt.mpr (by positivity)
  unfold pollAsyncResult
  rw [if_neg h]
  refine ⟨?_, rfl⟩
  cases etcd with
  | error e => simp
  | ok kvs => by_cases hl : kvs.length = 1 <;> simp [hl]

/-- Witness for the guard theorem at the empty request id. -/
theorem pollAsyncResult_guard_unreachable_witness :
    pollAsyncResult "" (Except.ok []) ≠ PollOutcome.guardNotFound ∧
    pollAsyncResult "" (Except.ok []) = PollOutcome.storageNotFound :=
  pollAsyncResult_guard_unreachable "" (Except.ok [])

/-- C8 counterexample: two requests for the same function at the same
node, arriving exactly one second apart (well within an observable
window), receive identical request ids, because the id embeds only the
sub-second nanosecond component of the arrival time. -/
theorem reqId_collision_cex :
    reqIdOf "f" "node-abcde" 123 = reqIdOf "f" "node-abcde" 1000000123 ∧
    (123 : Int) ≠ 1000000123 := by
  constructor
  · decide
  · decide

/-- C8 amended: the id is composed of the function name, the last five
characters of the node identifier and the sub-second nanosecond
component of the arrival time; arrivals whose nanosecond components
coincide receive the same id. -/
theorem reqIdOf_spec (funName nodeId : String) (t1 t2 : Int) :
    reqIdOf funName nodeId t1 =
      funName ++ "-" ++ nodeIdSuffix nodeId ++ toString (arrivalNanosecond t1) ∧
    (arrivalNanosecond t1 = arrivalNanosecond t2 →
      reqIdOf funName nodeId t1 = reqIdOf funName nodeId t2) := by
  refine ⟨rfl, fun h => ?_⟩
  unfold reqIdOf
  rw [h]

/-- Witness: a concrete collision derived through the amended theorem. -/
theorem reqIdOf_spec_witness :
    reqIdOf "g" "1234567890" 7 = reqIdOf "g" "1234567890" 1000000007 :=
  (reqIdOf_spec "g" "1234567890" 7 1000000007).2 (by decide)

/-- C6: the scheduler fallback chain of OnArrival: execute-decisions
try a warm container first, fall back to a cold start, then to cloud
offload when permitted, and drop otherwise; offload-decisions offload
and drop-decisions drop. -/
theorem onArrival_fallback_chain (env : Env) (dec : Decision) (f : Function)
    (canDo coldOk : Bool) (st : NodeState) :
    (∀ cid, dec = Decision.EXECUTE_REQUEST →
        (AcquireWarmContainer env f st).1 = Except.ok cid →
        (OnArrival env dec f canDo coldOk st).1 = SchedOutcome.execLocal cid) ∧
    (∀ e, dec = Decision.EXECUTE_REQUEST →
        (AcquireWarmContainer env f st).1 = Except.error e →
        ((coldOk = true →
            (OnArrival env dec f canDo coldOk st).1 = SchedOutcome.coldStarted) ∧
         (coldOk = false → canDo = true →
            (OnArrival env dec f canDo coldOk st).1 = SchedOutcome.offloaded) ∧
         (coldOk = false → canDo = false →
            (OnArrival env dec f canDo coldOk st).1 = SchedOutcome.dropped))) ∧
    (dec = Decision.OFFLOAD_REQUEST →
        (OnArrival env dec f canDo coldOk st).1 = SchedOutcome.offloaded) ∧
    (dec = Decision.DROP_REQUEST →
        (OnArrival env dec f canDo coldOk st).1 = SchedOutcome.dropped) := by
  refine ⟨?_, ?_, ?_, ?_⟩
  · intro cid hdec hw
    subst hdec
    simp [OnArrival, hw]
  · intro e hdec hw
    subst hdec
    refine ⟨?_, ?_, ?_⟩
    · intro hc
      simp [OnArrival, hw, hc]
    · intro hc hcd
      simp [OnArrival, hw, hc, hcd]
    · intro hc hcd
      simp [OnArrival, hw, hc, hcd]
  · intro hdec
    subst hdec
    rfl
  · intro hdec
    subst hdec
    rfl

/-- Function used by the fallback-chain witness. -/
def fC6 : Function :=
  { Name := "w", Runtime := "python", CustomImage := "",
    TarFunctionCode := "", CPUDemand := 1, MemoryMB := 128 }

/-- Environment used by the fallback-chain witness. -/
def envC6 : Env :=
  { contMemory := fun _ => 0, memErr := fun _ => false,
    destroyErr := fun _ => false, runtimeImage := fun _ => none,
    functions := fun _ => none }

/-- State used by the fallback-chain witness: no pools at all. -/
def stC6 : NodeState :=
  { AvailableCPUs := 1, AvailableMemMB := 64, ContainerPools := [],
    destroyCalls := [], destroyed := [] }

/-- Witness: warm miss, cold start failure, offloading allowed, so the
request is offloaded. -/
theorem onArrival_fallback_chain_witness :
    (OnArrival envC6 Decision.EXECUTE_REQUEST fC6 true false stC6).1 =
      SchedOutcome.offloaded :=
  ((onArrival_fallback_chain envC6 Decision.EXECUTE_REQUEST fC6 true false
      stC6).2.1 NodeErr.NoWarmFound rfl (by decide)).2.1 rfl rfl

/-- Function g used in the conservation trace: half a cpu share and
512 MB. -/
def gTrace : Function :=
  { Name := "g", Runtime := "python", CustomImage := "",
    TarFunctionCode := "", CPUDemand := 1/2, MemoryMB := 512 }

/-- Environment of the conservation trace: containers c1 and c2 hold
512 MB, destroying c1 fails, the metadata store knows g. -/
def envTrace : Env :=
  { contMemory := fun c => if c = "c1" then 512 else if c = "c2" then 512 else 0,
    memErr := fun _ => false,
    destroyErr := fun c => c = "c1",
    runtimeImage := fun r => if r = "python" then some "img" else none,
    functions := fun n => if n = "g" then some gTrace else none }

/-- Initial ledger of the conservation trace: 2 cpu shares, 1024 MB,
no pools. -/
def stTrace0 : NodeState :=
  { AvailableCPUs := 2, AvailableMemMB := 1024, ContainerPools := [],
    destroyCalls := [], destroyed := [] }

/-- The conservation trace: create c1, release it to warm, expire it
(its destruction fails but its memory is credited anyway), create c2,
then shut everything down (the busy walk removes from the ready list,
so c2 survives in busy while its memory and cpu are credited). -/
def stTraceEnd : NodeState :=
  ShutdownAllContainers envTrace
    ((NewContainer envTrace gTrace (Except.ok "c2")
      (DeleteExpiredContainer envTrace 20
        (ReleaseContainer gTrace "c1" 10
          ((NewContainer envTrace gTrace (Except.ok "c1") stTrace0).2)))).2)

/-- C2: resource conservation fails on the code. After the trace the
ledger shows all of the initial 2 cpu shares and 1024 MB available,
yet the pool of g still records the (already destroyed) busy container
c2, whose function reserves half a share and whose memory is 512 MB;
the zombie container c1, whose destruction failed after its memory had
been credited, is no longer recorded anywhere. -/
theorem conservation_violated :
    stTraceEnd.AvailableCPUs + heldCPU envTrace stTraceEnd ≠
      stTrace0.AvailableCPUs + heldCPU envTrace stTrace0 ∧
    stTraceEnd.AvailableMemMB + heldMem envTrace stTraceEnd ≠
      stTrace0.AvailableMemMB + heldMem envTrace stTrace0 ∧
    busyOf stTraceEnd "g" = [⟨"g", "c2"⟩] ∧
    stTraceEnd.destroyed = ["c2"] := by
  refine ⟨by with_unfolding_all decide, by with_unfolding_all decide, by with_unfolding_all decide, by with_unfolding_all decide⟩

/-- Function f used in the shutdown fixture: one cpu share, 256 MB. -/
def fShut : Function :=
  { Name := "f", Runtime := "python", CustomImage := "",
    TarFunctionCode := "", CPUDemand := 1, MemoryMB := 256 }

/-- Environment of the shutdown fixture: c1 holds 256 MB, c2 128 MB,
no failures, the metadata store knows f. -/
def envShut : Env :=
  { contMemory := fun c => if c = "c1" then 256 else if c = "c2" then 128 else 0,
    memErr := fun _ => false,
    destroyErr := fun _ => false,
    runtimeImage := fun _ => none,
    functions := fun n => if n = "f" then some fShut else none }

/-- Shutdown fixture state: one busy container c1 and one warm
container c2 for f. -/
def stShut : NodeState :=
  { AvailableCPUs := 1, AvailableMemMB := 100,
    ContainerPools := [("f", { busy := [⟨"f", "c1"⟩],
                               ready := [⟨50, "f", "c2"⟩] })],
    destroyCalls := [], destroyed := [] }

/-- C4: ShutdownAllContainers fails to purge the busy collection. On
the fixture the ready collection is emptied and both memory credits
and the cpu credit are applied (100 + 128 + 256 MB, 1 + 1 cpu), both
containers are destroyed, yet the busy entry c1 is still recorded:
the busy walk removes elements from the ready list, a no-op. -/
theorem shutdownAll_busy_not_purged :
    readyOf (ShutdownAllContainers envShut stShut) "f" = [] ∧
    busyOf (ShutdownAllContainers envShut stShut) "f" = [⟨"f", "c1"⟩] ∧
    (ShutdownAllContainers envShut stShut).AvailableMemMB = 484 ∧
    (ShutdownAllContainers envShut stShut).AvailableCPUs = 2 ∧
    (ShutdownAllContainers envShut stShut).destroyed = ["c2", "c1"] := by
  refine ⟨by with_unfolding_all decide, by with_unfolding_all decide, by with_unfolding_all decide, by with_unfolding_all decide, by with_unfolding_all decide⟩

/-- Function with an unknown runtime, for the reservation-leak
counterexample. -/
def fBadRuntime : Function :=
  { Name := "b", Runtime := "weird", CustomImage := "",
    TarFunctionCode := "", CPUDemand := 1, MemoryMB := 256 }

/-- Environment of the reservation-leak counterexample: no runtime
images at all. -/
def envLeak : Env :=
  { contMemory := fun _ => 0, memErr := fun _ => false,
    destroyErr := fun _ => false, runtimeImage := fun _ => none,
    functions := fun _ => none }

/-- State of the reservation-leak counterexample. -/
def stLeak : NodeState :=
  { AvailableCPUs := 2, AvailableMemMB := 1024, ContainerPools := [],
    destroyCalls := [], destroyed := [] }

/-- C5 counterexample: NewContainer acquires the reservation, creation
fails because the runtime is unknown, the error is surfaced, but the
reservation is not released: available cpu and memory stay lowered. -/
theorem newContainer_leak_cex :
    (NewContainer envLeak fBadRuntime (Except.ok "c7") stLeak).1 =
      Except.error (NodeErr.InvalidRuntime "weird") ∧
    (NewContainer envLeak fBadRuntime (Except.ok "c7") stLeak).2.AvailableCPUs ≠
      stLeak.AvailableCPUs ∧
    (NewContainer envLeak fBadRuntime (Except.ok "c7") stLeak).2.AvailableMemMB ≠
      stLeak.AvailableMemMB := by
  refine ⟨by with_unfolding_all decide, by with_unfolding_all decide, by with_unfolding_all decide⟩

/-- Function whose pool front belongs to another function, for the
mismatch counterexample. -/
def fMismatch : Function :=
  { Name := "g", Runtime := "python", CustomImage := "",
    TarFunctionCode := "", CPUDemand := 1, MemoryMB := 128 }

/-- Environment of the mismatch counterexample. -/
def envMismatch : Env :=
  { contMemory := fun _ => 0, memErr := fun _ => false,
    destroyErr := fun _ => false, runtimeImage := fun _ => none,
    functions := fun _ => none }

/-- State of the mismatch counterexample: the front warm entry of the
pool of g is recorded for function h. -/
def stMismatch : NodeState :=
  { AvailableCPUs := 2, AvailableMemMB := 100,
    ContainerPools := [("g", { busy := [], ready := [⟨100, "h", "c9"⟩] })],
    destroyCalls := [], destroyed := [] }

/-- C3 counterexample: on a front-entry function mismatch the call
does not fail with NoWarmFound; it fails with the distinct
container-exists-for-another-function error. -/
theorem acquireWarm_mismatch_cex :
    (AcquireWarmContainer envMismatch fMismatch stMismatch).1 =
      Except.error (NodeErr.FunctionMismatch "g") ∧
    (AcquireWarmContainer envMismatch fMismatch stMismatch).1 ≠
      Except.error NodeErr.NoWarmFound := by
  refine ⟨by decide, by decide⟩

/-- Environment of the eviction counterexample: destroying c1 fails. -/
def envEvict : Env :=
  { contMemory := fun c => if c = "c1" then 512 else 0,
    memErr := fun _ => false,
    destroyErr := fun c => c = "c1",
    runtimeImage := fun _ => none,
    functions := fun _ => none }

/-- State of the eviction counterexample: one warm container c1. -/
def stEvict : NodeState :=
  { AvailableCPUs := 1, AvailableMemMB := 0,
    ContainerPools := [("g", { busy := [], ready := [⟨100, "g", "c1"⟩] })],
    destroyCalls := [], destroyed := [] }

/-- C1 counterexample: a destruction error aborts phase two of
dismissContainer, which returns false, yet the state has been mutated:
the warm entry was already removed from its ready list (and no memory
was credited for it). -/
theorem dismissContainer_abort_mutates_cex :
    (dismissContainer envEvict 256 stEvict).1 = false ∧
    (dismissContainer envEvict 256 stEvict).2.ContainerPools ≠
      stEvict.ContainerPools ∧
    readyOf (dismissContainer envEvict 256 stEvict).2 "g" = [] ∧
    (dismissContainer envEvict 256 stEvict).2.AvailableMemMB =
      stEvict.AvailableMemMB := by
  refine ⟨by decide, by decide, by decide, by decide⟩


/-- C3 amended: AcquireWarmContainer pops the front warm entry of the
pool of f when it matches, moving it to busy and deducting cpu only;
with no warm entry it fails with NoWarmFound; when the front entry
belongs to another function it leaves the entry in place and fails
with the distinct function-mismatch error, not NoWarmFound; and,
provided available memory is non-negative, it fails with
OutOfResources exactly when the cpu reservation fails. -/
theorem acquireWarm_spec (env : Env) (f : Function) (st : NodeState)
    (hmem : 0 ≤ st.AvailableMemMB) :
    (readyOf st f.Name = [] →
      AcquireWarmContainer env f st =
        (Except.error NodeErr.NoWarmFound, ensurePool st f.Name)) ∧
    (∀ w rest, readyOf st f.Name = w :: rest → w.Function ≠ f.Name →
      AcquireWarmContainer env f st =
        (Except.error (NodeErr.FunctionMismatch f.Name), ensurePool st f.Name)) ∧
    (∀ w rest, readyOf st f.Name = w :: rest → w.Function = f.Name →
      st.AvailableCPUs < f.CPUDemand →
      (AcquireWarmContainer env f st).1 = Except.error NodeErr.OutOfResources) ∧
    (∀ w rest, readyOf st f.Name = w :: rest → w.Function = f.Name →
      f.CPUDemand ≤ st.AvailableCPUs →
      (AcquireWarmContainer env f st).1 = Except.ok w.contID ∧
      readyOf (AcquireWarmContainer env f st).2 f.Name = rest ∧
      busyOf (AcquireWarmContainer env f st).2 f.Name =
        busyOf st f.Name ++ [⟨f.Name, w.contID⟩] ∧
      (AcquireWarmContainer env f st).2.AvailableCPUs =
        st.AvailableCPUs - f.CPUDemand ∧
      (AcquireWarmContainer env f st).2.AvailableMemMB = st.AvailableMemMB) := by
  obtain ⟨hc, hm, -, -⟩ := ensurePool_scalars st f.Name
  have hpo := ensurePool_poolOf st f.Name
  have hlk := ensurePool_lookup st f.Name
  have hset : setPool (ensurePool st f.Name).ContainerPools f.Name
      (poolOf st f.Name) = (ensurePool st f.Name).ContainerPools :=
    setPool_self_of_lookup _ _ _ hlk
  refine ⟨?_, ?_, ?_, ?_⟩
  · intro hready
    have hfp : poolOf st f.Name = ⟨busyOf st f.Name, []⟩ := by
      rw [← hready]
      rfl
    have hg : getWarmContainer (poolOf st f.Name) f.Name =
        ("", false, poolOf st f.Name) := by
      rw [hfp]
      rfl
    simp only [AcquireWarmContainer, hpo, hg]
    simp only [Bool.false_eq_true, if_false, hset]
    rw [if_neg (by decide)]
  · intro w rest hready hfn
    have hfp : poolOf st f.Name = ⟨busyOf st f.Name, w :: rest⟩ := by
      rw [← hready]
      rfl
    have hg : getWarmContainer (poolOf st f.Name) f.Name =
        ("no function", false, poolOf st f.Name) := by
      rw [hfp]
      simp [getWarmContainer, hfn]
    simp only [AcquireWarmContainer, hpo, hg]
    simp only [Bool.false_eq_true, if_false, hset]
    rw [if_pos trivial]
  · intro w rest hready hfn hcpu
    have hfp : poolOf st f.Name = ⟨busyOf st f.Name, w :: rest⟩ := by
      rw [← hready]
      rfl
    have hg : getWarmContainer (poolOf st f.Name) f.Name =
        (w.contID, true,
         ⟨busyOf st f.Name ++ [⟨f.Name, w.contID⟩], rest⟩) := by
      rw [hfp]
      simp [getWarmContainer, hfn]
    simp only [AcquireWarmContainer, hpo, hg]
    simp only [if_true, acquireResources]
    rw [if_pos (show (ensurePool st f.Name).AvailableCPUs < f.CPUDemand by
          rw [hc]; exact hcpu)]
    rfl
  · intro w rest hready hfn hcpu
    have hfp : poolOf st f.Name = ⟨busyOf st f.Name, w :: rest⟩ := by
      rw [← hready]
      rfl
    have hg : getWarmContainer (poolOf st f.Name) f.Name =
        (w.contID, true,
         ⟨busyOf st f.Name ++ [⟨f.Name, w.contID⟩], rest⟩) := by
      rw [hfp]
      simp [getWarmContainer, hfn]
    simp only [AcquireWarmContainer, hpo, hg]
    simp only [if_true, acquireResources]
    rw [if_neg (show ¬ (ensurePool st f.Name).AvailableCPUs < f.CPUDemand by
          rw [hc]; exact not_lt.mpr hcpu)]
    rw [if_neg (show ¬ (ensurePool st f.Name).AvailableMemMB < 0 by
          rw [hm]; exact not_lt.mpr hmem)]
    refine ⟨rfl, ?_, ?_, by simp [hc], by simp [hm]⟩
    · simp [readyOf, poolOf, lookupPool_setPool_self]
    · simp [busyOf, poolOf, lookupPool_setPool_self]

/-- Witness: the amended AcquireWarmContainer contract at the concrete
mismatch fixture. -/
theorem acquireWarm_spec_witness :
    AcquireWarmContainer envMismatch fMismatch stMismatch =
      (Except.error (NodeErr.FunctionMismatch "g"), ensurePool stMismatch "g") :=
  (acquireWarm_spec envMismatch fMismatch stMismatch (by decide)).2.1
    ⟨100, "h", "c9"⟩ [] (by decide) (by decide)

/-- C9: when the cpu reservation fails, AcquireWarmContainer has
already moved the popped front warm entry into the busy collection and
does not restore it: the call returns OutOfResources with no container,
the ready list has lost its front entry and the busy list has gained
it. -/
theorem acquireWarm_oor_entry_stranded (env : Env) (f : Function)
    (st : NodeState) (w : warmContainer) (rest : List warmContainer)
    (hready : readyOf st f.Name = w :: rest)
    (hfn : w.Function = f.Name)
    (hcpu : st.AvailableCPUs < f.CPUDemand) :
    (AcquireWarmContainer env f st).1 = Except.error NodeErr.OutOfResources ∧
    readyOf (AcquireWarmContainer env f st).2 f.Name = rest ∧
    busyOf (AcquireWarmContainer env f st).2 f.Name =
      busyOf st f.Name ++ [⟨f.Name, w.contID⟩] := by
  obtain ⟨hc, hm, -, -⟩ := ensurePool_scalars st f.Name
  have hpo := ensurePool_poolOf st f.Name
  have hfp : poolOf st f.Name = ⟨busyOf st f.Name, w :: rest⟩ := by
    rw [← hready]
    rfl
  have hg : getWarmContainer (poolOf st f.Name) f.Name =
      (w.contID, true,
       ⟨busyOf st f.Name ++ [⟨f.Name, w.contID⟩], rest⟩) := by
    rw [hfp]
    simp [getWarmContainer, hfn]
  simp only [AcquireWarmContainer, hpo, hg]
  simp only [if_true, acquireResources]
  rw [if_pos (show (ensurePool st f.Name).AvailableCPUs < f.CPUDemand by
        rw [hc]; exact hcpu)]
  refine ⟨rfl, ?_, ?_⟩
  · simp [readyOf, poolOf, lookupPool_setPool_self]
  · simp [busyOf, poolOf, lookupPool_setPool_self]

/-- State for the stranded-entry witness: a matching warm container
but no cpu left. -/
def stOOR : NodeState :=
  { AvailableCPUs := 0, AvailableMemMB := 10,
    ContainerPools := [("g", { busy := [], ready := [⟨100, "g", "c3"⟩] })],
    destroyCalls := [], destroyed := [] }

/-- Witness: the stranded-entry behaviour at the concrete fixture. -/
theorem acquireWarm_oor_entry_stranded_witness :
    (AcquireWarmContainer envMismatch fMismatch stOOR).1 =
      Except.error NodeErr.OutOfResources ∧
    readyOf (AcquireWarmContainer envMismatch fMismatch stOOR).2 "g" = [] ∧
    busyOf (AcquireWarmContainer envMismatch fMismatch stOOR).2 "g" =
      busyOf stOOR "g" ++ [⟨"g", "c3"⟩] :=
  acquireWarm_oor_entry_stranded envMismatch fMismatch stOOR ⟨100, "g", "c3"⟩ []
    (by decide) (by decide) (by with_unfolding_all decide)

/-- C5 amended: NewContainer surfaces OutOfResources when the
reservation fails; once the reservation is acquired, a sandbox-driver
creation failure releases it (with no prior eviction the available
cpu and memory return exactly to their prior values) and surfaces the
driver error, and a successful creation places the container directly
into the busy collection of the pool of f; an unknown-runtime failure,
however, surfaces its error without releasing the reservation. -/
theorem newContainer_spec (env : Env) (f : Function)
    (driverResult : Except String ContainerID) (st : NodeState) :
    ((acquireResources env f.CPUDemand f.MemoryMB true st).1 = false →
      NewContainer env f driverResult st =
        (Except.error NodeErr.OutOfResources,
         (acquireResources env f.CPUDemand f.MemoryMB true st).2)) ∧
    ((acquireResources env f.CPUDemand f.MemoryMB true st).1 = true →
      (f.Runtime ≠ "custom" → env.runtimeImage f.Runtime = none →
        NewContainer env f driverResult st =
          (Except.error (NodeErr.InvalidRuntime f.Runtime),
           (acquireResources env f.CPUDemand f.MemoryMB true st).2)) ∧
      (∀ e, driverResult = Except.error e →
        (f.Runtime = "custom" ∨ (env.runtimeImage f.Runtime).isSome = true) →
        NewContainer env f driverResult st =
          (Except.error (NodeErr.DriverError e),
           releaseResources f.CPUDemand f.MemoryMB
             (acquireResources env f.CPUDemand f.MemoryMB true st).2)) ∧
      (∀ cid, driverResult = Except.ok cid →
        (f.Runtime = "custom" ∨ (env.runtimeImage f.Runtime).isSome = true) →
        (NewContainer env f driverResult st).1 = Except.ok cid ∧
        busyOf (NewContainer env f driverResult st).2 f.Name =
          busyOf (acquireResources env f.CPUDemand f.MemoryMB true st).2 f.Name
            ++ [⟨f.Name, cid⟩] ∧
        readyOf (NewContainer env f driverResult st).2 f.Name =
          readyOf (acquireResources env f.CPUDemand f.MemoryMB true st).2 f.Name ∧
        (NewContainer env f driverResult st).2.AvailableCPUs =
          (acquireResources env f.CPUDemand f.MemoryMB true st).2.AvailableCPUs ∧
        (NewContainer env f driverResult st).2.AvailableMemMB =
          (acquireResources env f.CPUDemand f.MemoryMB true st).2.AvailableMemMB)) := by
  constructor
  · intro ha
    simp only [NewContainer, ha, Bool.false_eq_true, if_false]
  · intro ha
    refine ⟨?_, ?_, ?_⟩
    · intro hrt him
      simp only [NewContainer, ha, if_true, NewContainerWithAcquiredResources,
        if_neg hrt, him]
    · intro e hde hvalid
      subst hde
      simp only [NewContainer, ha, if_true, NewContainerWithAcquiredResources]
      cases hvalid with
      | inl hc => rw [if_pos hc]
      | inr hs =>
          obtain ⟨img, himg2⟩ := Option.isSome_iff_exists.mp hs
          by_cases hc : f.Runtime = "custom"
          · rw [if_pos hc]
          · rw [if_neg hc, himg2]
    · intro cid hdc hvalid
      subst hdc
      simp only [NewContainer, ha, if_true, NewContainerWithAcquiredResources]
      set A := acquireResources env f.CPUDemand f.MemoryMB true st with hA
      obtain ⟨hc2, hm2, -, -⟩ := ensurePool_scalars A.2 f.Name
      have hpo := ensurePool_poolOf A.2 f.Name
      have hgoal : (match (if f.Runtime = "custom" then some f.CustomImage
            else env.runtimeImage f.Runtime : Option String) with
          | none => (Except.error (NodeErr.InvalidRuntime f.Runtime), A.2)
          | some _ =>
              let st2 := ensurePool A.2 f.Name
              let fp := poolOf st2 f.Name
              let fp2 := { fp with busy := fp.busy ++ [⟨f.Name, cid⟩] }
              (Except.ok cid,
               { st2 with ContainerPools := setPool st2.ContainerPools f.Name fp2 })) =
          (Except.ok cid,
           { ensurePool A.2 f.Name with
               ContainerPools :=
                 setPool (ensurePool A.2 f.Name).ContainerPools f.Name
                   { poolOf (ensurePool A.2 f.Name) f.Name with
                       busy := (poolOf (ensurePool A.2 f.Name) f.Name).busy ++
                         [⟨f.Name, cid⟩] } }) := by
        cases hvalid with
        | inl hc => rw [if_pos hc]
        | inr hs =>
            obtain ⟨img, himg2⟩ := Option.isSome_iff_exists.mp hs
            by_cases hc : f.Runtime = "custom"
            · rw [if_pos hc]
            · rw [if_neg hc, himg2]
      rw [hgoal]
      refine ⟨rfl, ?_, ?_, by simpa using hc2, by simpa using hm2⟩
      · simp [busyOf, poolOf, lookupPool_setPool_self, ensurePool_lookup]
      · simp [readyOf, poolOf, lookupPool_setPool_self, ensurePool_lookup]

/-- Witness: driver-failure rollback of NewContainer at a concrete
input with no eviction involved. -/
theorem newContainer_spec_witness :
    NewContainer envTrace gTrace (Except.error "boom") stTrace0 =
      (Except.error (NodeErr.DriverError "boom"),
       releaseResources gTrace.CPUDemand gTrace.MemoryMB
         (acquireResources envTrace gTrace.CPUDemand gTrace.MemoryMB true
           stTrace0).2) :=
  ((newContainer_spec envTrace gTrace (Except.error "boom") stTrace0).2
    (by with_unfolding_all decide)).2.1 "boom" rfl (Or.inr (by decide))

/-- Ids of the warm entries of one ready list that are expired at the
given instant (the sweep removal condition of the source). -/
def expiredIdsOf (now : Int) (l : List warmContainer) : List ContainerID :=
  (l.filter (fun w => decide (now > w.Expiration))).map (fun w => w.contID)

/-- Memory the expiry sweep credits for one ready list. -/
def expiredMemOf (env : Env) (now : Int) (l : List warmContainer) : Int :=
  ((l.filter (fun w => decide (now > w.Expiration))).map
    (fun w => getMemoryMB env w.contID)).sum

/-- Ids of all expired warm entries across the pools. -/
def expiredIds (now : Int) (pools : List (String × ContainerPool)) :
    List ContainerID :=
  (pools.map (fun p => expiredIdsOf now p.2.ready)).flatten

/-- Memory the expiry sweep credits across the pools. -/
def expiredMem (env : Env) (now : Int) (pools : List (String × ContainerPool)) :
    Int :=
  (pools.map (fun p => expiredMemOf env now p.2.ready)).sum

theorem expireSweepList_spec (env : Env) (now : Int)
    (hdes : ∀ c, env.destroyErr c = false) :
    ∀ (l : List warmContainer) (st : NodeState),
      (expireSweepList env now l st).1 =
        l.filter (fun w => decide (now ≤ w.Expiration)) ∧
      (expireSweepList env now l st).2.AvailableCPUs = st.AvailableCPUs ∧
      (expireSweepList env now l st).2.AvailableMemMB =
        st.AvailableMemMB + expiredMemOf env now l ∧
      (expireSweepList env now l st).2.ContainerPools = st.ContainerPools ∧
      (expireSweepList env now l st).2.destroyed =
        st.destroyed ++ expiredIdsOf now l ∧
      (expireSweepList env now l st).2.destroyCalls =
        st.destroyCalls ++ expiredIdsOf now l := by
  intro l
  induction l with
  | nil =>
      intro st
      simp [expireSweepList, expiredMemOf, expiredIdsOf]
  | cons w rest ih =>
      intro st
      by_cases h : now > w.Expiration
      · have hkeep : decide (now ≤ w.Expiration) = false := by
          simp [not_le.mpr h]
        have hrem : decide (now > w.Expiration) = true := by
          simp [h]
        have hstep : expireSweepList env now (w :: rest) st =
            expireSweepList env now rest
              { st with
                AvailableCPUs := st.AvailableCPUs + 0,
                AvailableMemMB := st.AvailableMemMB + getMemoryMB env w.contID,
                destroyCalls := st.destroyCalls ++ [w.contID],
                destroyed := st.destroyed ++ [w.contID] } := by
          simp [expireSweepList, h, releaseResources, containerDestroy, hdes]
        obtain ⟨h1, h2, h3, h4, h5, h6⟩ := ih
          { st with
            AvailableCPUs := st.AvailableCPUs + 0,
            AvailableMemMB := st.AvailableMemMB + getMemoryMB env w.contID,
            destroyCalls := st.destroyCalls ++ [w.contID],
            destroyed := st.destroyed ++ [w.contID] }
        rw [hstep]
        refine ⟨?_, ?_, ?_, ?_, ?_, ?_⟩
        · rw [h1]
          simp [List.filter_cons, hkeep]
        · rw [h2]
          simp
        · rw [h3]
          simp only [expiredMemOf, List.filter_cons, hrem, if_true,
            List.map_cons, List.sum_cons]
          omega
        · rw [h4]
        · rw [h5]
          simp [expiredIdsOf, List.filter_cons, hrem]
        · rw [h6]
          simp [expiredIdsOf, List.filter_cons, hrem]
      · have hkeep : decide (now ≤ w.Expiration) = true := by
          simp [not_lt.mp h]
        have hrem : decide (now > w.Expiration) = false := by
          simp [h]
        obtain ⟨h1, h2, h3, h4, h5, h6⟩ := ih st
        have hstep : expireSweepList env now (w :: rest) st =
            ((w :: (expireSweepList env now rest st).1),
             (expireSweepList env now rest st).2) := by
          simp [expireSweepList, h]
        rw [hstep]
        refine ⟨?_, h2, ?_, h4, ?_, ?_⟩
        · rw [h1]
          simp [List.filter_cons, hkeep]
        · rw [h3]
          simp [expiredMemOf, List.filter_cons, hrem]
        · rw [h5]
          simp [expiredIdsOf, List.filter_cons, hrem]
        · rw [h6]
          simp [expiredIdsOf, List.filter_cons, hrem]

theorem lookupPool_map (g : ContainerPool → ContainerPool) :
    ∀ (pools : List (String × ContainerPool)) (name : String),
      lookupPool (pools.map (fun p => (p.1, g p.2))) name =
        (lookupPool pools name).map g := by
  intro pools
  induction pools with
  | nil => intro name; simp [lookupPool]
  | cons hd tl ih =>
      intro name
      obtain ⟨n, p⟩ := hd
      by_cases h : n = name
      · simp [lookupPool, h]
      · simp [lookupPool, h, ih]

theorem expirePools_spec (env : Env) (now : Int)
    (hdes : ∀ c, env.destroyErr c = false) :
    ∀ (pools : List (String × ContainerPool)) (st : NodeState),
      (expirePools env now pools st).1 =
        pools.map (fun p => (p.1,
          { p.2 with ready :=
              p.2.ready.filter (fun w => decide (now ≤ w.Expiration)) })) ∧
      (expirePools env now pools st).2.AvailableCPUs = st.AvailableCPUs ∧
      (expirePools env now pools st).2.AvailableMemMB =
        st.AvailableMemMB + expiredMem env now pools ∧
      (expirePools env now pools st).2.ContainerPools = st.ContainerPools ∧
      (expirePools env now pools st).2.destroyed =
        st.destroyed ++ expiredIds now pools ∧
      (expirePools env now pools st).2.destroyCalls =
        st.destroyCalls ++ expiredIds now pools := by
  intro pools
  induction pools with
  | nil =>
      intro st
      simp [expirePools, expiredMem, expiredIds]
  | cons hd tl ih =>
      intro st
      obtain ⟨name, fp⟩ := hd
      obtain ⟨s1, s2, s3, s4, s5, s6⟩ := expireSweepList_spec env now hdes fp.ready st
      obtain ⟨p1, p2, p3, p4, p5, p6⟩ := ih (expireSweepList env now fp.ready st).2
      have hstep : expirePools env now ((name, fp) :: tl) st =
          ((name, { fp with ready := (expireSweepList env now fp.ready st).1 }) ::
            (expirePools env now tl (expireSweepList env now fp.ready st).2).1,
           (expirePools env now tl (expireSweepList env now fp.ready st).2).2) := by
        simp [expirePools]
      rw [hstep]
      refine ⟨?_, ?_, ?_, ?_, ?_, ?_⟩
      · simp only [List.map_cons, p1, s1]
      · rw [p2, s2]
      · rw [p3, s3]
        simp only [expiredMem, List.map_cons, List.sum_cons]
        omega
      · rw [p4, s4]
      · rw [p5, s5]
        simp [expiredIds, List.append_assoc]
      · rw [p6, s6]
        simp [expiredIds, List.append_assoc]

theorem lookupPool_expire (now : Int) :
    ∀ (pools : List (String × ContainerPool)) (name : String),
      lookupPool (pools.map (fun p => (p.1,
        { p.2 with ready :=
            p.2.ready.filter (fun w => decide (now ≤ w.Expiration)) }))) name =
      (lookupPool pools name).map (fun q =>
        { q with ready := q.ready.filter (fun w => decide (now ≤ w.Expiration)) }) := by
  intro pools
  induction pools with
  | nil => intro name; simp [lookupPool]
  | cons hd tl ih =>
      intro name
      obtain ⟨n, p⟩ := hd
      by_cases h : n = name
      · simp [lookupPool, h]
      · simp [lookupPool, h, ih]

/-- C7: the expiry sweep postcondition. With a cooperating driver
(destructions succeed), DeleteExpiredContainer removes from every
ready collection exactly the warm entries whose expiration is strictly
earlier than now, destroys their sandboxes and credits their memory
back; every remaining warm entry has expiration at least now; busy
collections and available cpu are untouched. -/
theorem deleteExpired_spec (env : Env) (now : Int) (st : NodeState)
    (hdes : ∀ c, env.destroyErr c = false) :
    (∀ name, readyOf (DeleteExpiredContainer env now st) name =
      (readyOf st name).filter (fun w => decide (now ≤ w.Expiration))) ∧
    (∀ name w, w ∈ readyOf st name → w.Expiration < now →
      w ∉ readyOf (DeleteExpiredContainer env now st) name) ∧
    (∀ name w, w ∈ readyOf (DeleteExpiredContainer env now st) name →
      now ≤ w.Expiration) ∧
    (∀ name, busyOf (DeleteExpiredContainer env now st) name = busyOf st name) ∧
    (DeleteExpiredContainer env now st).destroyed =
      st.destroyed ++ expiredIds now st.ContainerPools ∧
    (DeleteExpiredContainer env now st).destroyCalls =
      st.destroyCalls ++ expiredIds now st.ContainerPools ∧
    (DeleteExpiredContainer env now st).AvailableMemMB =
      st.AvailableMemMB + expiredMem env now st.ContainerPools ∧
    (DeleteExpiredContainer env now st).AvailableCPUs = st.AvailableCPUs := by
  obtain ⟨p1, p2, p3, p4, p5, p6⟩ :=
    expirePools_spec env now hdes st.ContainerPools st
  have hready : ∀ name, readyOf (DeleteExpiredContainer env now st) name =
      (readyOf st name).filter (fun w => decide (now ≤ w.Expiration)) := by
    intro name
    simp only [DeleteExpiredContainer, readyOf, poolOf]
    rw [p1, lookupPool_expire]
    cases lookupPool st.ContainerPools name <;> simp
  refine ⟨hready, ?_, ?_, ?_, p5, p6, p3, p2⟩
  · intro name w hw hexp
    rw [hready name]
    intro hmem
    have := (List.mem_filter.mp hmem).2
    simp at this
    omega
  · intro name w hw
    rw [hready name] at hw
    have := (List.mem_filter.mp hw).2
    simpa using this
  · intro name
    simp only [DeleteExpiredContainer, busyOf, poolOf]
    rw [p1, lookupPool_expire]
    cases lookupPool st.ContainerPools name <;> simp

/-- Witness: the expiry sweep at the concrete shutdown fixture (warm
entry expiring at 50, swept at 60). -/
theorem deleteExpired_spec_witness :
    readyOf (DeleteExpiredContainer envShut 60 stShut) "f" =
      (readyOf stShut "f").filter (fun w => decide ((60:Int) ≤ w.Expiration)) ∧
    busyOf (DeleteExpiredContainer envShut 60 stShut) "f" = busyOf stShut "f" ∧
    (DeleteExpiredContainer envShut 60 stShut).AvailableMemMB =
      stShut.AvailableMemMB + expiredMem envShut 60 stShut.ContainerPools :=
  ⟨(deleteExpired_spec envShut 60 stShut (fun _ => rfl)).1 "f",
   (deleteExpired_spec envShut 60 stShut (fun _ => rfl)).2.2.2.1 "f",
   (deleteExpired_spec envShut 60 stShut (fun _ => rfl)).2.2.2.2.2.2.1⟩

/-- State transformation of one successful phase-two step of
dismissContainer: front removal, destruction logging and memory
credit. -/
def applyItem (env : Env) (st : NodeState) (item : itemToDismiss) : NodeState :=
  { st with
    ContainerPools := removeFrontReady st.ContainerPools item.poolName,
    AvailableMemMB := st.AvailableMemMB + item.memory,
    destroyCalls := st.destroyCalls ++ [item.contID],
    destroyed := st.destroyed ++ [item.contID] }

/-- State dismissContainer leaves behind when the destruction of the
k-th collected item fails: the earlier items are fully applied, the
failing item is removed from its pool and its destruction attempted,
but its memory is not credited. -/
def dismissFailState (env : Env) (items : List itemToDismiss) (k : Nat)
    (st : NodeState) : NodeState :=
  let stPre := (items.take k).foldl (applyItem env) st
  match (items.drop k).head? with
  | some item =>
      { stPre with
        ContainerPools := removeFrontReady stPre.ContainerPools item.poolName,
        destroyCalls := stPre.destroyCalls ++ [item.contID] }
  | none => stPre

theorem phase2_spec (env : Env) :
    ∀ (items : List itemToDismiss),
      (∀ st, (∀ i ∈ items, env.destroyErr i.contID = false) →
        phase2 env items st = (true, items.foldl (applyItem env) st)) ∧
      (∀ st k (hk : k < items.length),
        env.destroyErr (items.get ⟨k, hk⟩).contID = true →
        (∀ j (hj : j < k),
          env.destroyErr (items.get ⟨j, Nat.lt_trans hj hk⟩).contID = false) →
        phase2 env items st = (false, dismissFailState env items k st)) := by
  intro items
  induction items with
  | nil =>
      constructor
      · intro st h
        rfl
      · intro st k hk
        exact absurd hk (Nat.not_lt_zero k)
  | cons i rest ih =>
      constructor
      · intro st hall
        have hi : env.destroyErr i.contID = false :=
          hall i (List.mem_cons_self i rest)
        have hstep : phase2 env (i :: rest) st =
            phase2 env rest (applyItem env st i) := by
          simp [phase2, containerDestroy, hi, applyItem]
        rw [hstep, ih.1 _ (fun j hj => hall j (List.mem_cons_of_mem i hj))]
        rfl
      · intro st k hk herr hmin
        cases k with
        | zero =>
            have hi : env.destroyErr i.contID = true := herr
            simp [phase2, containerDestroy, hi, dismissFailState]
        | succ k =>
            have hi : env.destroyErr i.contID = false := hmin 0 (Nat.succ_pos k)
            have hstep : phase2 env (i :: rest) st =
                phase2 env rest (applyItem env st i) := by
              simp [phase2, containerDestroy, hi, applyItem]
            have hk2 : k < rest.length := Nat.lt_of_succ_lt_succ (by simpa using hk)
            have herr2 : env.destroyErr (rest.get ⟨k, hk2⟩).contID = true := by
              simpa using herr
            have hmin2 : ∀ j (hj : j < k),
                env.destroyErr (rest.get ⟨j, Nat.lt_trans hj hk2⟩).contID = false := by
              intro j hj
              have := hmin (j + 1) (Nat.succ_lt_succ hj)
              simpa using this
            rw [hstep, ih.2 _ k hk2 herr2 hmin2]
            rfl

theorem phase1Pool_acc (required : Int) (frontID : ContainerID) (memory : Int)
    (name : String) :
    ∀ (l : List warmContainer) (acc : List itemToDismiss) (cleaned : Int),
      ∃ delta : List itemToDismiss,
        (phase1Pool required frontID memory name l acc cleaned).1 =
          acc ++ delta ∧
        (phase1Pool required frontID memory name l acc cleaned).2.1 =
          cleaned + (delta.map (fun i => i.memory)).sum := by
  intro l
  induction l with
  | nil =>
      intro acc cleaned
      exact ⟨[], by simp [phase1Pool], by simp [phase1Pool]⟩
  | cons w rest ih =>
      intro acc cleaned
      by_cases hge : cleaned + memory ≥ required
      · refine ⟨[⟨frontID, name, memory⟩], ?_, ?_⟩
        · simp [phase1Pool, hge]
        · simp [phase1Pool, hge]
      · obtain ⟨d, h1, h2⟩ :=
          ih (acc ++ [⟨frontID, name, memory⟩]) (cleaned + memory)
        refine ⟨⟨frontID, name, memory⟩ :: d, ?_, ?_⟩
        · rw [show phase1Pool required frontID memory name (w :: rest) acc cleaned
              = phase1Pool required frontID memory name rest
                  (acc ++ [⟨frontID, name, memory⟩]) (cleaned + memory) by
            simp [phase1Pool, hge]]
          rw [h1]
          simp
        · rw [show phase1Pool required frontID memory name (w :: rest) acc cleaned
              = phase1Pool required frontID memory name rest
                  (acc ++ [⟨frontID, name, memory⟩]) (cleaned + memory) by
            simp [phase1Pool, hge]]
          rw [h2]
          simp only [List.map_cons, List.sum_cons]
          omega

theorem phase1_acc (env : Env) (required : Int) :
    ∀ (pools : List (String × ContainerPool)) (acc : List itemToDismiss)
      (cleaned : Int),
      ∃ delta : List itemToDismiss,
        (phase1 env required pools acc cleaned).1 = acc ++ delta ∧
        (phase1 env required pools acc cleaned).2 =
          cleaned + (delta.map (fun i => i.memory)).sum := by
  intro pools
  induction pools with
  | nil =>
      intro acc cleaned
      exact ⟨[], by simp [phase1], by simp [phase1]⟩
  | cons hd tl ih =>
      intro acc cleaned
      obtain ⟨name, fp⟩ := hd
      cases hready : fp.ready with
      | nil =>
          obtain ⟨d, h1, h2⟩ := ih acc cleaned
          exact ⟨d, by simpa [phase1, hready] using h1,
                 by simpa [phase1, hready] using h2⟩
      | cons front tail =>
          obtain ⟨d1, e1, e2⟩ := phase1Pool_acc required front.contID
            (getMemoryMB env front.contID) name (front :: tail) acc cleaned
          have hstep : phase1 env required ((name, fp) :: tl) acc cleaned =
              (if (phase1Pool required front.contID (getMemoryMB env front.contID)
                    name (front :: tail) acc cleaned).2.2 = true then
                ((phase1Pool required front.contID (getMemoryMB env front.contID)
                    name (front :: tail) acc cleaned).1,
                 (phase1Pool required front.contID (getMemoryMB env front.contID)
                    name (front :: tail) acc cleaned).2.1)
              else
                phase1 env required tl
                  (phase1Pool required front.contID (getMemoryMB env front.contID)
                    name (front :: tail) acc cleaned).1
                  (phase1Pool required front.contID (getMemoryMB env front.contID)
                    name (front :: tail) acc cleaned).2.1) := by
            simp [phase1, hready]
          by_cases hdone : (phase1Pool required front.contID
              (getMemoryMB env front.contID) name (front :: tail) acc cleaned).2.2 = true
          · refine ⟨d1, ?_, ?_⟩
            · rw [hstep, if_pos hdone]
              exact e1
            · rw [hstep, if_pos hdone]
              exact e2
          · obtain ⟨d2, f1, f2⟩ := ih
              (phase1Pool required front.contID (getMemoryMB env front.contID)
                name (front :: tail) acc cleaned).1
              (phase1Pool required front.contID (getMemoryMB env front.contID)
                name (front :: tail) acc cleaned).2.1
            refine ⟨d1 ++ d2, ?_, ?_⟩
            · rw [hstep, if_neg hdone, f1, e1, List.append_assoc]
            · rw [hstep, if_neg hdone, f2, e2]
              simp only [List.map_append, List.sum_append]
              omega

theorem foldl_applyItem_spec (env : Env) :
    ∀ (items : List itemToDismiss) (st : NodeState),
      (items.foldl (applyItem env) st).AvailableMemMB =
        st.AvailableMemMB + (items.map (fun i => i.memory)).sum ∧
      (items.foldl (applyItem env) st).AvailableCPUs = st.AvailableCPUs ∧
      (items.foldl (applyItem env) st).destroyed =
        st.destroyed ++ items.map (fun i => i.contID) ∧
      (items.foldl (applyItem env) st).destroyCalls =
        st.destroyCalls ++ items.map (fun i => i.contID) := by
  intro items
  induction items with
  | nil =>
      intro st
      simp
  | cons i rest ih =>
      intro st
      obtain ⟨h1, h2, h3, h4⟩ := ih (applyItem env st i)
      refine ⟨?_, ?_, ?_, ?_⟩
      · rw [List.foldl_cons, h1]
        simp only [applyItem, List.map_cons, List.sum_cons]
        omega
      · rw [List.foldl_cons, h2]
        rfl
      · rw [List.foldl_cons, h3]
        simp [applyItem]
      · rw [List.foldl_cons, h4]
        simp [applyItem]

theorem firstFail (env : Env) :
    ∀ items : List itemToDismiss,
      (∀ i ∈ items, env.destroyErr i.contID = false) ∨
      ∃ k, ∃ hk : k < items.length,
        env.destroyErr (items.get ⟨k, hk⟩).contID = true ∧
        ∀ j (hj : j < k),
          env.destroyErr (items.get ⟨j, Nat.lt_trans hj hk⟩).contID = false := by
  intro items
  induction items with
  | nil => exact Or.inl (by simp)
  | cons i rest ih =>
      cases hi : env.destroyErr i.contID with
      | true =>
          refine Or.inr ⟨0, by simp, hi, ?_⟩
          intro j hj
          exact absurd hj (Nat.not_lt_zero j)
      | false =>
          cases ih with
          | inl hall =>
              refine Or.inl ?_
              intro x hx
              rcases List.mem_cons.mp hx with h | h
              · rw [h]
                exact hi
              · exact hall x h
          | inr hfail =>
              obtain ⟨k, hk, herr, hmin⟩ := hfail
              refine Or.inr ⟨k + 1, by simpa using Nat.succ_lt_succ hk, by simpa using herr, ?_⟩
              intro j hj
              cases j with
              | zero => simpa using hi
              | succ j =>
                  have := hmin j (Nat.lt_of_succ_lt_succ hj)
                  simpa using this

/-- C1 amended: dismissContainer is two-phase: when phase one cannot
accumulate the required memory it returns false and mutates nothing;
when it returns true it has removed exactly the collected entries,
credited exactly the collected memory (which is at least the
requirement) and called Destroy on the recorded ids (the front id of
each contributing pool, once per entry taken from it), leaving cpu
untouched; a destruction error instead aborts phase two with false
after the items before the failure have been removed and credited and
the failing item has been removed without credit. -/
theorem dismissContainer_spec (env : Env) (required : Int) (st : NodeState) :
    ((phase1 env required st.ContainerPools [] 0).2 < required →
      dismissContainer env required st = (false, st)) ∧
    ((dismissContainer env required st).1 = true →
      required ≤ (phase1 env required st.ContainerPools [] 0).2 ∧
      (dismissContainer env required st).2 =
        ((phase1 env required st.ContainerPools [] 0).1).foldl (applyItem env) st ∧
      (dismissContainer env required st).2.AvailableMemMB =
        st.AvailableMemMB + (phase1 env required st.ContainerPools [] 0).2 ∧
      (dismissContainer env required st).2.AvailableCPUs = st.AvailableCPUs ∧
      (dismissContainer env required st).2.destroyed =
        st.destroyed ++
          ((phase1 env required st.ContainerPools [] 0).1).map
            (fun i => i.contID)) ∧
    (required ≤ (phase1 env required st.ContainerPools [] 0).2 →
      (dismissContainer env required st).1 = false →
      ∃ k, ∃ hk : k < ((phase1 env required st.ContainerPools [] 0).1).length,
        env.destroyErr
          (((phase1 env required st.ContainerPools [] 0).1).get ⟨k, hk⟩).contID =
          true ∧
        (dismissContainer env required st).2 =
          dismissFailState env ((phase1 env required st.ContainerPools [] 0).1)
            k st) := by
  obtain ⟨delta, hd1, hd2⟩ := phase1_acc env required st.ContainerPools [] 0
  have hdelta : (phase1 env required st.ContainerPools [] 0).1 = delta := by
    simpa using hd1
  have hcleaned : (phase1 env required st.ContainerPools [] 0).2 =
      (delta.map (fun i => i.memory)).sum := by
    simpa using hd2
  refine ⟨?_, ?_, ?_⟩
  · intro hlt
    simp only [dismissContainer]
    rw [if_neg (show ¬ (phase1 env required st.ContainerPools [] 0).2 ≥ required
      by omega)]
  · intro htrue
    by_cases hge : required ≤ (phase1 env required st.ContainerPools [] 0).2
    · have heq : dismissContainer env required st =
          phase2 env (phase1 env required st.ContainerPools [] 0).1 st := by
        simp only [dismissContainer]
        rw [if_pos (show (phase1 env required st.ContainerPools [] 0).2 ≥ required
          by omega)]
      rcases firstFail env (phase1 env required st.ContainerPools [] 0).1 with
        hall | hfail
      · have h2 :=
          (phase2_spec env (phase1 env required st.ContainerPools [] 0).1).1 st hall
        obtain ⟨m1, m2, m3, m4⟩ :=
          foldl_applyItem_spec env (phase1 env required st.ContainerPools [] 0).1 st
        rw [heq, h2]
        refine ⟨hge, rfl, ?_, m2, m3⟩
        rw [m1, hdelta, ← hcleaned]
      · obtain ⟨k, hk, herr, hmin⟩ := hfail
        have h2 :=
          (phase2_spec env (phase1 env required st.ContainerPools [] 0).1).2 st
            k hk herr hmin
        rw [heq, h2] at htrue
        exact absurd htrue (by simp)
    · have hfalse2 : dismissContainer env required st = (false, st) := by
        simp only [dismissContainer]
        rw [if_neg (show ¬ (phase1 env required st.ContainerPools [] 0).2 ≥ required
          by omega)]
      rw [hfalse2] at htrue
      exact absurd htrue (by simp)
  · intro hge hfalse
    have heq : dismissContainer env required st =
        phase2 env (phase1 env required st.ContainerPools [] 0).1 st := by
      simp only [dismissContainer]
      rw [if_pos (show (phase1 env required st.ContainerPools [] 0).2 ≥ required
        by omega)]
    rcases firstFail env (phase1 env required st.ContainerPools [] 0).1 with
      hall | hfail
    · have h2 :=
        (phase2_spec env (phase1 env required st.ContainerPools [] 0).1).1 st hall
      rw [heq, h2] at hfalse
      exact absurd hfalse (by simp)
    · obtain ⟨k, hk, herr, hmin⟩ := hfail
      have h2 :=
        (phase2_spec env (phase1 env required st.ContainerPools [] 0).1).2 st
          k hk herr hmin
      rw [heq, h2]
      exact ⟨k, hk, herr, rfl⟩

/-- Environment of the eviction witness: like the eviction
counterexample but with destructions succeeding. -/
def envEvictOk : Env :=
  { envEvict with destroyErr := fun _ => false }

/-- Witness: the amended eviction contract on a concrete success run
(one 512 MB warm container covering a 256 MB requirement). -/
theorem dismissContainer_spec_witness :
    (dismissContainer envEvictOk 256 stEvict).2.AvailableMemMB =
      stEvict.AvailableMemMB +
        (phase1 envEvictOk 256 stEvict.ContainerPools [] 0).2 ∧
    (dismissContainer envEvictOk 256 stEvict).2.AvailableCPUs =
      stEvict.AvailableCPUs :=
  ⟨((dismissContainer_spec envEvictOk 256 stEvict).2.1
      (by with_unfolding_all decide)).2.2.1,
   ((dismissContainer_spec envEvictOk 256 stEvict).2.1
      (by with_unfolding_all decide)).2.2.2.1⟩
